import Mathlib

/-!
Verification of the preprocessing behaviour of
`src/tepismat/backends/openslide/include/matlab-openslide-wrapper.h`.

The file under verification is a C header consisting only of preprocessor
directives.  We give a shallow embedding of the relevant fragment of the C
preprocessor: a macro environment mapping macro names to (object-like) bodies,
an executed-directive trace, a diagnostics list (a redefinition diagnostic is
recorded when an object-like macro is redefined with a different body, as the
C standard requires; redefinition with an identical body is diagnostic-free),
and a declaration list standing for the declarations a header exports.

The third-party header `openslide.h` is not part of the repository; its effect
on the preprocessing state is abstracted as a function parameter `ext`, and —
where a claim needs its documented behaviour — modelled from the spec.
-/

/-- Names of the two object-like macros the wrapper defines. -/
def guardName : String := "MATLAB_OPENSLIDE_WRAPPER_H"

/-- The configuration macro selecting the library's simplified-headers mode. -/
def simplifyName : String := "OPENSLIDE_SIMPLIFY_HEADERS"

/-- An event in the executed-directive trace: an executed `#define` (with the
macro body), or an executed `#include` together with a snapshot of the macro
environment at the moment of inclusion. -/
inductive PPEvent where
  | defines (m b : String)
  | includes (h : String) (snap : List (String × String))
deriving DecidableEq

/-- Preprocessing state of a translation unit: the macro environment (name,
body pairs), the executed-directive trace, diagnostics, and the declarations
exported so far. -/
structure PPState where
  defined : List (String × String)
  events : List PPEvent
  diags : List String
  decls : List String
deriving DecidableEq

/-- Look up the body of a macro in the environment. -/
def lookupD : List (String × String) → String → Option String
  | [], _ => none
  | (k, v) :: ds, m => if k = m then some v else lookupD ds m

/-- Replace the body of a macro everywhere in the environment. -/
def replaceD : List (String × String) → String → String → List (String × String)
  | [], _, _ => []
  | (k, v) :: ds, m, b =>
    if k = m then (k, b) :: replaceD ds m b else (k, v) :: replaceD ds m b

/-- Remove a macro from the environment (the effect of `#undef`). -/
def removeD : List (String × String) → String → List (String × String)
  | [], _ => []
  | (k, v) :: ds, m => if k = m then removeD ds m else (k, v) :: removeD ds m

/-- Effect of `#define m b` on the environment, paired with a flag telling
whether a redefinition diagnostic is emitted: fresh macros are appended;
redefinition with the identical body is a no-op without diagnostic;
redefinition with a different body replaces the body and emits a diagnostic. -/
def defineStep (ds : List (String × String)) (m b : String) :
    List (String × String) × Bool :=
  match lookupD ds m with
  | none => (ds ++ [(m, b)], false)
  | some b' => if b' = b then (ds, false) else (replaceD ds m b, true)

/-- One source line of a header, viewed by the preprocessor: a non-directive
line (comment or blank), `#ifndef m`, `#define m b`, `#undef m`,
`#include <h>`, or `#endif`. -/
inductive Line where
  | text (s : String)
  | ifndefD (m : String)
  | defineD (m b : String)
  | undefD (m : String)
  | includeD (h : String)
  | endifD
deriving DecidableEq

/-- Run the preprocessor over a list of lines.  `skip` is the number of
enclosing conditional groups whose condition failed (0 = active).  `ext h`
gives the effect of textually including the external header `h` on the state;
the wrapper's own executed directives are recorded in the trace, and an
executed `#include` records a snapshot of the macro environment. -/
def runLines (ext : String → PPState → PPState) :
    List Line → Nat → PPState → PPState
  | [], _, st => st
  | .text _ :: ls, skip, st => runLines ext ls skip st
  | .ifndefD m :: ls, 0, st =>
    match lookupD st.defined m with
    | some _ => runLines ext ls 1 st
    | none => runLines ext ls 0 st
  | .ifndefD _ :: ls, k + 1, st => runLines ext ls (k + 2) st
  | .defineD m b :: ls, 0, st =>
    runLines ext ls 0
      { st with
        defined := (defineStep st.defined m b).1
        events := st.events ++ [.defines m b]
        diags :=
          if (defineStep st.defined m b).2 then
            st.diags ++ ["redefinition of " ++ m]
          else st.diags }
  | .defineD _ _ :: ls, k + 1, st => runLines ext ls (k + 1) st
  | .undefD m :: ls, 0, st =>
    runLines ext ls 0 { st with defined := removeD st.defined m }
  | .undefD _ :: ls, k + 1, st => runLines ext ls (k + 1) st
  | .includeD h :: ls, 0, st =>
    runLines ext ls 0
      (ext h { st with events := st.events ++ [.includes h st.defined] })
  | .includeD _ :: ls, k + 1, st => runLines ext ls (k + 1) st
  | .endifD :: ls, skip, st => runLines ext ls (skip - 1) st

/-- The verbatim lines of the single source file
`tepismat/backends/openslide/include/matlab-openslide-wrapper.h`. -/
def wrapperFileLines : List String :=
  [ "// Openslide header wrapper as proposed by Benjamin Gilbert:"
  , "// https://github.com/openslide/openslide/issues/116#issuecomment-65187001"
  , " "
  , "#ifndef MATLAB_OPENSLIDE_WRAPPER_H"
  , "#define MATLAB_OPENSLIDE_WRAPPER_H"
  , "#define OPENSLIDE_SIMPLIFY_HEADERS"
  , "#include <openslide.h>  "
  , "#endif" ]

/-- The source files of the repository fragment: path and lines. -/
def srcFiles : List (String × List String) :=
  [("tepismat/backends/openslide/include/matlab-openslide-wrapper.h",
    wrapperFileLines)]

/-- The wrapper header, line by line, as seen by the preprocessor
(two comment lines, a blank line, `#ifndef`/`#define` of the guard, the
`#define` of the empty-bodied configuration macro, the `#include`, `#endif`). -/
def wrapperLines : List Line :=
  [ .text "// Openslide header wrapper as proposed by Benjamin Gilbert:"
  , .text "// https://github.com/openslide/openslide/issues/116#issuecomment-65187001"
  , .text " "
  , .ifndefD guardName
  , .defineD guardName ""
  , .defineD simplifyName ""
  , .includeD "openslide.h"
  , .endifD ]

/-- Effect of one inclusion of the wrapper header on the preprocessing state. -/
def runWrapper (ext : String → PPState → PPState) (st : PPState) : PPState :=
  runLines ext wrapperLines 0 st

/-- The state just before the wrapper's `#include <openslide.h>` takes effect
(guard and configuration macro defined, the three directives traced), used to
factor the wrapper run as `ext "openslide.h"` applied to this state. -/
def midState (st : PPState) : PPState :=
  { st with
    defined := (defineStep (st.defined ++ [(guardName, "")]) simplifyName "").1
    events := st.events ++
      [ .defines guardName ""
      , .defines simplifyName ""
      , .includes "openslide.h"
          (defineStep (st.defined ++ [(guardName, "")]) simplifyName "").1 ]
    diags :=
      if (defineStep (st.defined ++ [(guardName, "")]) simplifyName "").2 then
        st.diags ++ ["redefinition of " ++ simplifyName]
      else st.diags }

/-- Iterated inclusion of the wrapper header within one translation unit. -/
def includeTimes (ext : String → PPState → PPState) :
    Nat → PPState → PPState
  | 0, st => st
  | n + 1, st => includeTimes ext n (runWrapper ext st)

/-- Whether a line list contains `#undef m`. -/
def hasUndefOf (m : String) : List Line → Bool
  | [] => false
  | .undefD m' :: ls => m' == m || hasUndefOf m ls
  | _ :: ls => hasUndefOf m ls

/-- Number of executed `#define` directives for macro `m` in a trace. -/
def countDefinesOf (m : String) (evs : List PPEvent) : Nat :=
  (evs.filter fun e =>
    match e with
    | .defines m' _ => m' == m
    | _ => false).length

/-- The identity external-header effect, used to instantiate theorems at
concrete inputs. -/
def extId : String → PPState → PPState := fun _ st => st

/-- The empty initial preprocessing state. -/
def st0 : PPState := ⟨[], [], [], []⟩

/-- An initial state in which the guard macro is already defined. -/
def stG : PPState := ⟨[(guardName, "")], [], [], []⟩

/-! ### Environment-lookup lemmas -/

theorem lookupD_append (ds ds' : List (String × String)) (k : String) :
    lookupD (ds ++ ds') k =
      match lookupD ds k with
      | some v => some v
      | none => lookupD ds' k := by
  induction ds with
  | nil => simp [lookupD]
  | cons p ds ih =>
    obtain ⟨a, b⟩ := p
    by_cases h : a = k <;> simp [lookupD, h, ih]

theorem replaceD_lookup_self (ds : List (String × String)) (m b : String)
    (h : (lookupD ds m).isSome) :
    lookupD (replaceD ds m b) m = some b := by
  induction ds with
  | nil => simp [lookupD] at h
  | cons p ds ih =>
    obtain ⟨a, v⟩ := p
    by_cases ha : a = m
    · simp [lookupD, replaceD, ha]
    · simp [lookupD, replaceD, ha] at h ⊢
      exact ih h

theorem replaceD_lookup_other (ds : List (String × String)) (m b m' : String)
    (h : m' ≠ m) :
    lookupD (replaceD ds m b) m' = lookupD ds m' := by
  induction ds with
  | nil => simp [replaceD]
  | cons p ds ih =>
    obtain ⟨a, v⟩ := p
    by_cases ha : a = m
    · subst ha
      have ham : ¬ a = m' := fun hh => h hh.symm
      simp [lookupD, replaceD, ham, ih]
    · by_cases ha' : a = m' <;> simp [lookupD, replaceD, ha, ha', ih, h]

theorem removeD_lookup_other (ds : List (String × String)) (m m' : String)
    (h : m' ≠ m) :
    lookupD (removeD ds m) m' = lookupD ds m' := by
  induction ds with
  | nil => simp [removeD]
  | cons p ds ih =>
    obtain ⟨a, v⟩ := p
    by_cases ha : a = m
    · subst ha
      have ham : ¬ a = m' := fun hh => h hh.symm
      simp [lookupD, removeD, ham, ih]
    · by_cases ha' : a = m' <;> simp [lookupD, removeD, ha, ha', ih, h]

theorem defineStep_lookup_self (ds : List (String × String)) (m b : String) :
    lookupD (defineStep ds m b).1 m = some b := by
  unfold defineStep
  cases h : lookupD ds m with
  | none =>
    simp [lookupD_append, h, lookupD]
  | some b' =>
    by_cases hb : b' = b
    · simp [hb, h]
    · simp [hb]
      exact replaceD_lookup_self ds m b (by simp [h])

theorem defineStep_lookup_other (ds : List (String × String)) (m b m' : String)
    (h : m' ≠ m) :
    lookupD (defineStep ds m b).1 m' = lookupD ds m' := by
  unfold defineStep
  cases hl : lookupD ds m with
  | none =>
    have hmm : ¬ m = m' := fun hh => h hh.symm
    simp [lookupD_append]
    cases hl' : lookupD ds m' with
    | none => simp [lookupD, hmm]
    | some v => simp
  | some b' =>
    by_cases hb : b' = b
    · simp [hb]
    · simp [hb, replaceD_lookup_other ds m b m' h]

theorem defineStep_isSome_mono (ds : List (String × String)) (m b m' : String)
    (h : (lookupD ds m').isSome) :
    (lookupD (defineStep ds m b).1 m').isSome := by
  by_cases hm : m' = m
  · subst hm
    simp [defineStep_lookup_self]
  · rw [defineStep_lookup_other ds m b m' hm]
    exact h

theorem guard_ne_simplify : guardName ≠ simplifyName := by decide

theorem defineStep_fresh (ds : List (String × String)) (m b : String)
    (h : lookupD ds m = none) : defineStep ds m b = (ds ++ [(m, b)], false) := by
  simp [defineStep, h]

/-! ### Core run lemmas -/

theorem run_core (ext : String → PPState → PPState) (st : PPState)
    (hG : lookupD st.defined guardName = none) :
    runWrapper ext st = ext "openslide.h" (midState st) := by
  unfold runWrapper wrapperLines midState
  simp [runLines, hG, defineStep_fresh st.defined guardName "" hG]

theorem run_skip (ext : String → PPState → PPState) (st : PPState)
    (hG : (lookupD st.defined guardName).isSome) :
    runWrapper ext st = st := by
  obtain ⟨b, hb⟩ := Option.isSome_iff_exists.mp hG
  unfold runWrapper wrapperLines
  simp [runLines, hb]

theorem midState_lookup_guard (st : PPState)
    (hG : lookupD st.defined guardName = none) :
    lookupD (midState st).defined guardName = some "" := by
  have h1 : lookupD (st.defined ++ [(guardName, "")]) guardName = some "" := by
    rw [lookupD_append]
    simp [hG, lookupD]
  calc lookupD (midState st).defined guardName
      = lookupD (st.defined ++ [(guardName, "")]) guardName :=
        defineStep_lookup_other _ _ _ _ guard_ne_simplify
    _ = some "" := h1

theorem midState_lookup_simplify (st : PPState) :
    lookupD (midState st).defined simplifyName = some "" :=
  defineStep_lookup_self _ _ _

theorem midState_decls (st : PPState) : (midState st).decls = st.decls := rfl

theorem midState_diags (st : PPState)
    (hS : lookupD st.defined simplifyName = none ∨
          lookupD st.defined simplifyName = some "") :
    (midState st).diags = st.diags := by
  have hg : lookupD [(guardName, "")] simplifyName = none := by
    simp [lookupD, guard_ne_simplify]
  have h2 : (defineStep (st.defined ++ [(guardName, "")]) simplifyName "").2
      = false := by
    rcases hS with h | h
    · simp [defineStep, lookupD_append, h, hg]
    · simp [defineStep, lookupD_append, h]
  simp only [midState, h2]
  simp

theorem run_guard_defined (ext : String → PPState → PPState) (st : PPState)
    (hx : ∀ h s, (lookupD s.defined guardName).isSome →
      (lookupD (ext h s).defined guardName).isSome) :
    (lookupD (runWrapper ext st).defined guardName).isSome := by
  cases hG : lookupD st.defined guardName with
  | some b =>
    rw [run_skip ext st (by simp [hG])]
    simp [hG]
  | none =>
    rw [run_core ext st hG]
    exact hx _ _ (by simp [midState_lookup_guard st hG])

theorem includeTimes_fixed (ext : String → PPState → PPState) (st : PPState)
    (h : (lookupD st.defined guardName).isSome) :
    ∀ n, includeTimes ext n st = st := by
  intro n
  induction n with
  | zero => rfl
  | succ n ih =>
    show includeTimes ext n (runWrapper ext st) = st
    rw [run_skip ext st h]
    exact ih

theorem runLines_keepDef (ext : String → PPState → PPState) (m : String)
    (hx : ∀ h s, (lookupD s.defined m).isSome →
      (lookupD (ext h s).defined m).isSome) :
    ∀ (ls : List Line) (skip : Nat) (st : PPState),
      hasUndefOf m ls = false → (lookupD st.defined m).isSome →
      (lookupD (runLines ext ls skip st).defined m).isSome := by
  intro ls
  induction ls with
  | nil =>
    intro skip st _ hd
    simpa [runLines] using hd
  | cons l ls ih =>
    intro skip st hu hd
    cases l with
    | text s =>
      exact ih skip st (by simpa [hasUndefOf] using hu) hd
    | ifndefD m'' =>
      have hu' : hasUndefOf m ls = false := by simpa [hasUndefOf] using hu
      cases skip with
      | zero =>
        cases hl : lookupD st.defined m'' with
        | some b => simpa [runLines, hl] using ih 1 st hu' hd
        | none => simpa [runLines, hl] using ih 0 st hu' hd
      | succ k => simpa [runLines] using ih (k + 2) st hu' hd
    | defineD m1 b1 =>
      have hu' : hasUndefOf m ls = false := by simpa [hasUndefOf] using hu
      cases skip with
      | zero =>
        refine ih 0 _ hu' ?_
        exact defineStep_isSome_mono st.defined m1 b1 m hd
      | succ k => simpa [runLines] using ih (k + 1) st hu' hd
    | undefD m1 =>
      have hu1 : (m1 == m) = false ∧ hasUndefOf m ls = false := by
        simpa [hasUndefOf] using hu
      have hne : m ≠ m1 := by
        intro hh
        exact absurd (by simp [hh] : (m1 == m) = true) (by simp [hu1.1])
      cases skip with
      | zero =>
        refine ih 0 _ hu1.2 ?_
        show (lookupD (removeD st.defined m1) m).isSome
        rw [removeD_lookup_other st.defined m1 m hne]
        exact hd
      | succ k => simpa [runLines] using ih (k + 1) st hu1.2 hd
    | includeD h1 =>
      have hu' : hasUndefOf m ls = false := by simpa [hasUndefOf] using hu
      cases skip with
      | zero =>
        refine ih 0 _ hu' ?_
        exact hx h1 _ hd
      | succ k => simpa [runLines] using ih (k + 1) st hu' hd
    | endifD =>
      have hu' : hasUndefOf m ls = false := by simpa [hasUndefOf] using hu
      exact ih (skip - 1) st hu' hd

theorem runLines_inc_snap (ext : String → PPState → PPState) (m : String)
    (hx : ∀ h s, (lookupD s.defined m).isSome →
      (lookupD (ext h s).defined m).isSome)
    (hev : ∀ h s, (ext h s).events = s.events) :
    ∀ (ls : List Line) (skip : Nat) (st : PPState),
      hasUndefOf m ls = false → (lookupD st.defined m).isSome →
      ∀ h snap, PPEvent.includes h snap ∈ (runLines ext ls skip st).events →
        PPEvent.includes h snap ∈ st.events ∨ (lookupD snap m).isSome := by
  intro ls
  induction ls with
  | nil =>
    intro skip st _ _ h snap hm
    exact Or.inl (by simpa [runLines] using hm)
  | cons l ls ih =>
    intro skip st hu hd h snap hm
    cases l with
    | text s =>
      exact ih skip st (by simpa [hasUndefOf] using hu) hd h snap hm
    | ifndefD m'' =>
      have hu' : hasUndefOf m ls = false := by simpa [hasUndefOf] using hu
      cases skip with
      | zero =>
        cases hl : lookupD st.defined m'' with
        | some b =>
          exact ih 1 st hu' hd h snap (by simpa [runLines, hl] using hm)
        | none =>
          exact ih 0 st hu' hd h snap (by simpa [runLines, hl] using hm)
      | succ k =>
        exact ih (k + 2) st hu' hd h snap (by simpa [runLines] using hm)
    | defineD m1 b1 =>
      have hu' : hasUndefOf m ls = false := by simpa [hasUndefOf] using hu
      cases skip with
      | zero =>
        have hd' := defineStep_isSome_mono st.defined m1 b1 m hd
        rcases ih 0 _ hu' hd' h snap (by simpa [runLines] using hm) with hin | hs
        · rcases List.mem_append.mp hin with hin' | hin'
          · exact Or.inl hin'
          · simp at hin'
        · exact Or.inr hs
      | succ k =>
        exact ih (k + 1) st hu' hd h snap (by simpa [runLines] using hm)
    | undefD m1 =>
      have hu1 : (m1 == m) = false ∧ hasUndefOf m ls = false := by
        simpa [hasUndefOf] using hu
      have hne : m ≠ m1 := by
        intro hh
        exact absurd (by simp [hh] : (m1 == m) = true) (by simp [hu1.1])
      cases skip with
      | zero =>
        have hd' : (lookupD (removeD st.defined m1) m).isSome := by
          rw [removeD_lookup_other st.defined m1 m hne]
          exact hd
        exact ih 0 { st with defined := removeD st.defined m1 } hu1.2 hd'
          h snap (by simpa [runLines] using hm)
      | succ k =>
        exact ih (k + 1) st hu1.2 hd h snap (by simpa [runLines] using hm)
    | includeD h1 =>
      have hu' : hasUndefOf m ls = false := by simpa [hasUndefOf] using hu
      cases skip with
      | zero =>
        have hd' : (lookupD (ext h1
            { st with events := st.events ++ [.includes h1 st.defined] }).defined
              m).isSome :=
          hx h1 _ hd
        rcases ih 0 _ hu' hd' h snap (by simpa [runLines] using hm) with hin | hs
        · rw [hev] at hin
          rcases List.mem_append.mp hin with hin' | hin'
          · exact Or.inl hin'
          · simp at hin'
            exact Or.inr (by rw [hin'.2]; exact hd)
        · exact Or.inr hs
      | succ k =>
        exact ih (k + 1) st hu' hd h snap (by simpa [runLines] using hm)
    | endifD =>
      have hu' : hasUndefOf m ls = false := by simpa [hasUndefOf] using hu
      exact ih (skip - 1) st hu' hd h snap hm

theorem runLines_decls (ext : String → PPState → PPState)
    (hdc : ∀ h s, (ext h s).decls = s.decls) :
    ∀ (ls : List Line) (skip : Nat) (st : PPState),
      (runLines ext ls skip st).decls = st.decls := by
  intro ls
  induction ls with
  | nil => intro skip st; rfl
  | cons l ls ih =>
    intro skip st
    cases l with
    | text s => exact ih skip st
    | ifndefD m'' =>
      cases skip with
      | zero =>
        cases hl : lookupD st.defined m'' with
        | some b => simpa [runLines, hl] using ih 1 st
        | none => simpa [runLines, hl] using ih 0 st
      | succ k => simpa [runLines] using ih (k + 2) st
    | defineD m1 b1 =>
      cases skip with
      | zero => exact ih 0 _
      | succ k => simpa [runLines] using ih (k + 1) st
    | undefD m1 =>
      cases skip with
      | zero => exact ih 0 _
      | succ k => simpa [runLines] using ih (k + 1) st
    | includeD h1 =>
      cases skip with
      | zero =>
        show (runLines ext ls 0 _).decls = st.decls
        rw [ih 0 _]
        rw [hdc]
      | succ k => simpa [runLines] using ih (k + 1) st
    | endifD => exact ih (skip - 1) st

/-- Modelled from the spec: `openslide.h` is a third-party header that is not
part of src/.  Per the spec's external-interface section, defining
`OPENSLIDE_SIMPLIFY_HEADERS` before inclusion selects a "simplified" subset of
the library's declarations; otherwise the full set is exported.  Its modelled
effect is to append the corresponding declaration set to the state. -/
def oslEffect (simplifiedDecls fullDecls : List String) :
    String → PPState → PPState :=
  fun h st =>
    if h = "openslide.h" then
      { st with decls := st.decls ++
          (if (lookupD st.defined simplifyName).isSome then simplifiedDecls
           else fullDecls) }
    else st

/-- Modelled from the spec: including `openslide.h` directly in the library's
simplified-headers mode, i.e. the configuration macro is defined immediately
before the inclusion. -/
def directSimplified (ext : String → PPState → PPState) (st : PPState) :
    PPState :=
  runLines ext [Line.defineD simplifyName "", Line.includeD "openslide.h"] 0 st

/-! ### Claim theorems -/

/-- C1: repeated inclusion of the wrapper header within one translation unit
is idempotent.  Provided the external header does not undefine the include
guard, the preprocessing state after `n ≥ 1` inclusions equals the state after
the first inclusion; and from a state where the guard is undefined and the
configuration macro is undefined or empty-bodied, if the external header emits
no diagnostics then no (redefinition) diagnostic is produced at all. -/
theorem wrapper_repeated_inclusion_idempotent
    (ext : String → PPState → PPState) (st : PPState)
    (hx : ∀ h s, (lookupD s.defined guardName).isSome →
      (lookupD (ext h s).defined guardName).isSome) :
    (∀ n, 1 ≤ n → includeTimes ext n st = runWrapper ext st) ∧
    (lookupD st.defined guardName = none →
      (lookupD st.defined simplifyName = none ∨
       lookupD st.defined simplifyName = some "") →
      (∀ h s, (ext h s).diags = s.diags) →
      (runWrapper ext st).diags = st.diags) := by
  constructor
  · intro n hn
    obtain ⟨k, rfl⟩ := Nat.exists_eq_add_of_le hn
    rw [Nat.add_comm]
    show includeTimes ext k (runWrapper ext st) = runWrapper ext st
    exact includeTimes_fixed ext (runWrapper ext st)
      (run_guard_defined ext st hx) k
  · intro hG hS hdg
    rw [run_core ext st hG, hdg, midState_diags st hS]

theorem wrapper_repeated_inclusion_idempotent_witness :
    includeTimes extId 3 st0 = runWrapper extId st0 ∧
    (runWrapper extId st0).diags = st0.diags :=
  ⟨(wrapper_repeated_inclusion_idempotent extId st0 (fun _ _ hh => hh)).1
      3 (by decide),
   (wrapper_repeated_inclusion_idempotent extId st0 (fun _ _ hh => hh)).2
      rfl (Or.inl rfl) (fun _ _ => rfl)⟩

/-- C2: in a run of the wrapper from a state in which the guard was not
previously defined, the configuration macro `OPENSLIDE_SIMPLIFY_HEADERS` is
defined exactly once among the wrapper's executed directives, that definition
occurs strictly before the wrapper's inclusion of `openslide.h`, and
`openslide.h` is never included by the wrapper while the configuration macro
is undefined. -/
theorem simplify_defined_once_before_include
    (ext : String → PPState → PPState) (st : PPState)
    (hev : ∀ h s, (ext h s).events = s.events)
    (hG : lookupD st.defined guardName = none) :
    countDefinesOf simplifyName
        ((runWrapper ext st).events.drop st.events.length) = 1 ∧
    (∃ i j : Nat, i < j ∧
      ((runWrapper ext st).events.drop st.events.length)[i]? =
        some (PPEvent.defines simplifyName "") ∧
      ∃ snap,
        ((runWrapper ext st).events.drop st.events.length)[j]? =
          some (PPEvent.includes "openslide.h" snap) ∧
        lookupD snap simplifyName = some "") ∧
    (∀ snap,
      PPEvent.includes "openslide.h" snap ∈
        (runWrapper ext st).events.drop st.events.length →
      (lookupD snap simplifyName).isSome) := by
  have hdrop : (runWrapper ext st).events.drop st.events.length =
      [ PPEvent.defines guardName ""
      , PPEvent.defines simplifyName ""
      , PPEvent.includes "openslide.h"
          (defineStep (st.defined ++ [(guardName, "")]) simplifyName "").1 ] := by
    rw [run_core ext st hG, hev]
    show (st.events ++
      [ PPEvent.defines guardName ""
      , PPEvent.defines simplifyName ""
      , PPEvent.includes "openslide.h"
          (defineStep (st.defined ++ [(guardName, "")]) simplifyName "").1
      ]).drop st.events.length = _
    exact List.drop_left _ _
  refine ⟨?_, ?_, ?_⟩
  · rw [hdrop]
    have h1 : (guardName == simplifyName) = false := by decide
    simp [countDefinesOf, List.filter, h1]
  · refine ⟨1, 2, by norm_num, ?_, ?_⟩
    · rw [hdrop]; rfl
    · refine ⟨(defineStep (st.defined ++ [(guardName, "")]) simplifyName "").1,
        ?_, defineStep_lookup_self _ _ _⟩
      rw [hdrop]; rfl
  · intro snap hm
    rw [hdrop] at hm
    simp at hm
    rw [hm]
    simp [defineStep_lookup_self]

theorem simplify_defined_once_before_include_witness :
    countDefinesOf simplifyName
      ((runWrapper extId st0).events.drop st0.events.length) = 1 :=
  (simplify_defined_once_before_include extId st0 (fun _ _ => rfl) rfl).1

/-- C3: from a state where the guard is undefined, the wrapper's entire
preprocessing behaviour consists of exactly three executed directives — the
`#define` of the guard, the `#define` of the configuration macro, and the
`#include` of `openslide.h` — and nothing else; in particular no declarations
of the wrapper's own survive preprocessing. -/
theorem wrapper_trace_exactly_three_actions
    (ext : String → PPState → PPState) (st : PPState)
    (hev : ∀ h s, (ext h s).events = s.events)
    (hdc : ∀ h s, (ext h s).decls = s.decls)
    (hG : lookupD st.defined guardName = none) :
    (runWrapper ext st).events = st.events ++
      [ PPEvent.defines guardName ""
      , PPEvent.defines simplifyName ""
      , PPEvent.includes "openslide.h"
          (defineStep (st.defined ++ [(guardName, "")]) simplifyName "").1 ] ∧
    (runWrapper ext st).decls = st.decls := by
  constructor
  · rw [run_core ext st hG, hev]
    rfl
  · rw [run_core ext st hG, hdc]
    rfl

theorem wrapper_trace_exactly_three_actions_witness :
    (runWrapper extId st0).events = st0.events ++
      [ PPEvent.defines guardName ""
      , PPEvent.defines simplifyName ""
      , PPEvent.includes "openslide.h"
          (defineStep (st0.defined ++ [(guardName, "")]) simplifyName "").1 ] :=
  (wrapper_trace_exactly_three_actions extId st0
    (fun _ _ => rfl) (fun _ _ => rfl) rfl).1

/-- C4: including the wrapper is observationally equivalent, in the exported
declarations, to including `openslide.h` directly in simplified-headers mode:
with the external header's effect modelled from the spec (`oslEffect`), both
routes export exactly the simplified declaration set — nothing added, nothing
removed. -/
theorem wrapper_equiv_direct_simplified (sd fd : List String) (st : PPState)
    (hG : lookupD st.defined guardName = none) :
    (runWrapper (oslEffect sd fd) st).decls =
      (directSimplified (oslEffect sd fd) st).decls ∧
    (runWrapper (oslEffect sd fd) st).decls = st.decls ++ sd := by
  have hw : (runWrapper (oslEffect sd fd) st).decls = st.decls ++ sd := by
    rw [run_core _ st hG]
    show (oslEffect sd fd "openslide.h" (midState st)).decls = st.decls ++ sd
    unfold oslEffect
    simp [midState_lookup_simplify st, midState_decls st]
  have hdct : (directSimplified (oslEffect sd fd) st).decls =
      st.decls ++ sd := by
    unfold directSimplified
    simp [runLines, oslEffect, defineStep_lookup_self]
  exact ⟨hw.trans hdct.symm, hw⟩

theorem wrapper_equiv_direct_simplified_witness :
    (runWrapper (oslEffect ["osl_open"] ["osl_open", "osl_extra"]) st0).decls =
      (directSimplified (oslEffect ["osl_open"] ["osl_open", "osl_extra"])
        st0).decls :=
  (wrapper_equiv_direct_simplified ["osl_open"] ["osl_open", "osl_extra"]
    st0 rfl).1

/-- C5: the wrapper introduces no diagnostic of its own: from a state where
the guard is undefined and the configuration macro is undefined or
empty-bodied, if including `openslide.h` itself produces no diagnostics
(the header is available and compatible) then the whole run of the wrapper
produces no diagnostics. -/
theorem wrapper_adds_no_diagnostics
    (ext : String → PPState → PPState) (st : PPState)
    (hG : lookupD st.defined guardName = none)
    (hS : lookupD st.defined simplifyName = none ∨
          lookupD st.defined simplifyName = some "")
    (hdg : ∀ h s, (ext h s).diags = s.diags) :
    (runWrapper ext st).diags = st.diags := by
  rw [run_core ext st hG, hdg, midState_diags st hS]

theorem wrapper_adds_no_diagnostics_witness :
    (runWrapper extId st0).diags = st0.diags :=
  wrapper_adds_no_diagnostics extId st0 rfl (Or.inl rfl) (fun _ _ => rfl)

/-- C6: the wrapper is a compile-time-only artifact: its own lines contribute
no declarations (and hence no runtime behaviour); if the delegated inclusion
of `openslide.h` is replaced by an effect that exports nothing, the whole run
exports nothing — for any initial state, even one in which the guard is
already defined. -/
theorem wrapper_contributes_no_decls
    (ext : String → PPState → PPState) (st : PPState)
    (hdc : ∀ h s, (ext h s).decls = s.decls) :
    (runWrapper ext st).decls = st.decls :=
  runLines_decls ext hdc wrapperLines 0 st

theorem wrapper_contributes_no_decls_witness :
    (runWrapper extId st0).decls = st0.decls :=
  wrapper_contributes_no_decls extId st0 (fun _ _ => rfl)

/-- C7: the repository fragment consists of a single header file that is
exactly 8 lines long. -/
theorem repo_single_file_eight_lines :
    srcFiles.length = 1 ∧ wrapperFileLines.length = 8 ∧
    srcFiles =
      [("tepismat/backends/openslide/include/matlab-openslide-wrapper.h",
        wrapperFileLines)] :=
  ⟨rfl, rfl, rfl⟩

/-- C8: the wrapper contains no `#undef`; once the wrapper has run (from a
state where the guard was undefined), `OPENSLIDE_SIMPLIFY_HEADERS` is defined,
and definedness of the configuration macro is an invariant preserved by any
further preprocessing that does not `#undef` it — so any later direct
inclusion of `openslide.h` in the same translation unit is also executed with
the configuration macro defined. -/
theorem simplify_defined_invariant
    (ext : String → PPState → PPState) (st : PPState)
    (hx : ∀ h s, (lookupD s.defined simplifyName).isSome →
      (lookupD (ext h s).defined simplifyName).isSome)
    (hev : ∀ h s, (ext h s).events = s.events)
    (hG : lookupD st.defined guardName = none) :
    (∀ m, Line.undefD m ∉ wrapperLines) ∧
    (lookupD (runWrapper ext st).defined simplifyName).isSome ∧
    (∀ (ls : List Line) (st' : PPState),
      hasUndefOf simplifyName ls = false →
      (lookupD st'.defined simplifyName).isSome →
      (lookupD (runLines ext ls 0 st').defined simplifyName).isSome ∧
      (∀ h snap,
        PPEvent.includes h snap ∈ (runLines ext ls 0 st').events →
        PPEvent.includes h snap ∈ st'.events ∨
          (lookupD snap simplifyName).isSome)) := by
  refine ⟨?_, ?_, ?_⟩
  · intro m
    simp [wrapperLines]
  · rw [run_core ext st hG]
    exact hx _ _ (by simp [midState_lookup_simplify st])
  · intro ls st' hu hd
    exact ⟨runLines_keepDef ext simplifyName hx ls 0 st' hu hd,
      fun h snap hm =>
        runLines_inc_snap ext simplifyName hx hev ls 0 st' hu hd h snap hm⟩

theorem simplify_defined_invariant_witness :
    (lookupD (runWrapper extId st0).defined simplifyName).isSome = true :=
  (simplify_defined_invariant extId st0 (fun _ _ hh => hh)
    (fun _ _ => rfl) rfl).2.1

/-- C9: if the guard macro is already defined before the wrapper is included,
the inclusion has no effect at all: the state is unchanged, so the
configuration macro is not defined by it, `openslide.h` is not included (no
event is added), and no declarations are gained. -/
theorem guard_predefined_no_effect
    (ext : String → PPState → PPState) (st : PPState)
    (hG : (lookupD st.defined guardName).isSome) :
    runWrapper ext st = st ∧
    (runWrapper ext st).events = st.events ∧
    (runWrapper ext st).decls = st.decls := by
  have h := run_skip ext st hG
  exact ⟨h, by rw [h], by rw [h]⟩

theorem guard_predefined_no_effect_witness :
    runWrapper extId stG = stG :=
  (guard_predefined_no_effect extId stG rfl).1

/-- C10: frame property of the wrapper on the macro environment: from any
state with the guard undefined, the run factors as the external header's
effect applied to a state whose environment binds the guard and the
configuration macro to the empty body and agrees with the initial environment
on every other macro. -/
theorem wrapper_frame_on_defined
    (ext : String → PPState → PPState) (st : PPState)
    (hG : lookupD st.defined guardName = none) :
    runWrapper ext st = ext "openslide.h" (midState st) ∧
    lookupD (midState st).defined guardName = some "" ∧
    lookupD (midState st).defined simplifyName = some "" ∧
    (∀ m, m ≠ guardName → m ≠ simplifyName →
      lookupD (midState st).defined m = lookupD st.defined m) := by
  refine ⟨run_core ext st hG, midState_lookup_guard st hG,
    midState_lookup_simplify st, ?_⟩
  intro m hg hs
  show lookupD (defineStep (st.defined ++ [(guardName, "")]) simplifyName "").1 m
      = lookupD st.defined m
  rw [defineStep_lookup_other _ _ _ _ hs, lookupD_append]
  cases hm : lookupD st.defined m with
  | some v => simp
  | none =>
    have hgm : ¬ guardName = m := fun hh => hg hh.symm
    simp [lookupD, hgm]

theorem wrapper_frame_on_defined_witness :
    runWrapper extId st0 = extId "openslide.h" (midState st0) :=
  (wrapper_frame_on_defined extId st0 rfl).1
